import Mathlib

/-
Verification of the browser bridge layer (html/bridge.js) of the
amplifier-polyglot-demo repository: the tool-calling protocol adapter.

The embedding models JavaScript values as the inductive type `JsVal`
(JSON values plus `undefined`), with JS truthiness, property access,
string coercion, `JSON.parse` and `JSON.stringify`.  Numbers are modelled
as rationals: the bridge never performs arithmetic on them, it only tests
truthiness and passes them through, so the rational model is faithful for
every behaviour the bridge observes (NaN cannot occur in values produced
by `JSON.parse`).  Thrown exceptions are modelled with `Except String`,
carrying the error message; the exact wording of engine-generated
messages (TypeError, SyntaxError) is representative, and no theorem
depends on it.
-/

/-- A JavaScript value as observed by the bridge: the seven cases the
bridge code distinguishes (`typeof`, truthiness, property access). -/
inductive JsVal where
  | undefined
  | null
  | bool (b : Bool)
  | num (q : Rat)
  | str (s : String)
  | arr (elems : List JsVal)
  | obj (fields : List (String × JsVal))

mutual

def JsVal.decEq : (a b : JsVal) → Decidable (a = b)
  | .undefined, .undefined => isTrue rfl
  | .null, .null => isTrue rfl
  | .bool a, .bool b =>
      if h : a = b then isTrue (by rw [h]) else isFalse (fun hc => by cases hc; exact h rfl)
  | .num a, .num b =>
      if h : a = b then isTrue (by rw [h]) else isFalse (fun hc => by cases hc; exact h rfl)
  | .str a, .str b =>
      if h : a = b then isTrue (by rw [h]) else isFalse (fun hc => by cases hc; exact h rfl)
  | .arr a, .arr b =>
      match JsVal.decEqList a b with
      | isTrue h => isTrue (by rw [h])
      | isFalse h => isFalse (fun hc => by cases hc; exact h rfl)
  | .obj a, .obj b =>
      match JsVal.decEqFields a b with
      | isTrue h => isTrue (by rw [h])
      | isFalse h => isFalse (fun hc => by cases hc; exact h rfl)
  | .undefined, .null | .undefined, .bool _ | .undefined, .num _ | .undefined, .str _ | .undefined, .arr _ | .undefined, .obj _ => isFalse (by intro h; cases h)
  | .null, .undefined | .null, .bool _ | .null, .num _ | .null, .str _ | .null, .arr _ | .null, .obj _ => isFalse (by intro h; cases h)
  | .bool _, .undefined | .bool _, .null | .bool _, .num _ | .bool _, .str _ | .bool _, .arr _ | .bool _, .obj _ => isFalse (by intro h; cases h)
  | .num _, .undefined | .num _, .null | .num _, .bool _ | .num _, .str _ | .num _, .arr _ | .num _, .obj _ => isFalse (by intro h; cases h)
  | .str _, .undefined | .str _, .null | .str _, .bool _ | .str _, .num _ | .str _, .arr _ | .str _, .obj _ => isFalse (by intro h; cases h)
  | .arr _, .undefined | .arr _, .null | .arr _, .bool _ | .arr _, .num _ | .arr _, .str _ | .arr _, .obj _ => isFalse (by intro h; cases h)
  | .obj _, .undefined | .obj _, .null | .obj _, .bool _ | .obj _, .num _ | .obj _, .str _ | .obj _, .arr _ => isFalse (by intro h; cases h)

def JsVal.decEqList : (a b : List JsVal) → Decidable (a = b)
  | [], [] => isTrue rfl
  | [], _ :: _ => isFalse (by intro h; cases h)
  | _ :: _, [] => isFalse (by intro h; cases h)
  | x :: xs, y :: ys =>
      match JsVal.decEq x y with
      | isFalse h => isFalse (fun hc => by cases hc; exact h rfl)
      | isTrue h1 =>
        match JsVal.decEqList xs ys with
        | isTrue h2 => isTrue (by rw [h1, h2])
        | isFalse h => isFalse (fun hc => by cases hc; exact h rfl)

def JsVal.decEqFields : (a b : List (String × JsVal)) → Decidable (a = b)
  | [], [] => isTrue rfl
  | [], _ :: _ => isFalse (by intro h; cases h)
  | _ :: _, [] => isFalse (by intro h; cases h)
  | (k, v) :: xs, (k', v') :: ys =>
      if hk : k = k' then
        match JsVal.decEq v v' with
        | isFalse h => isFalse (fun hc => by cases hc; exact h rfl)
        | isTrue h1 =>
          match JsVal.decEqFields xs ys with
          | isTrue h2 => isTrue (by rw [hk, h1, h2])
          | isFalse h => isFalse (fun hc => by cases hc; exact h rfl)
      else isFalse (fun hc => by cases hc; exact hk rfl)

end

instance : DecidableEq JsVal := JsVal.decEq

/-- The double-quote character, kept out of character-literal position. -/
def dquote : Char := Char.ofNat 34

/-- The backslash character. -/
def bslash : Char := Char.ofNat 92

/-- The opening curly brace character. -/
def lbrace : Char := Char.ofNat 123

/-- The closing curly brace character. -/
def rbrace : Char := Char.ofNat 125

/-- JS property read on an assoc list: first binding wins (the parser and
the bridge never build objects with duplicate keys). -/
def lookupField : List (String × JsVal) → String → JsVal
  | [], _ => .undefined
  | (k', v) :: fs, k => if k' = k then v else lookupField fs k

/-- JS property access `v[k]` on a non-null receiver: objects yield the
field or `undefined`; every other receiver yields `undefined` (primitive
property access never throws in the bridge's uses). -/
def getField : JsVal → String → JsVal
  | .obj fs, k => lookupField fs k
  | _, _ => .undefined

/-- JS truthiness.  `NaN` cannot occur here (numbers reaching truthiness
tests come from `JSON.parse` or are literals). -/
def truthy : JsVal → Bool
  | .undefined => false
  | .null => false
  | .bool b => b
  | .num q => decide (q ≠ 0)
  | .str s => decide (s ≠ "")
  | .arr _ => true
  | .obj _ => true

/-- Digits of a decimal fraction `rem/den`, up to `fuel` digits (JS prints
at most 17 significant digits; the bridge only ever prints short exact
decimals, so the bound is never hit on observed values). -/
def fracDigits (rem den : Nat) : Nat → String
  | 0 => ""
  | fuel + 1 =>
    if rem = 0 then ""
    else toString (rem * 10 / den) ++ fracDigits (rem * 10 % den) den fuel

/-- Decimal rendering of a number, as JS number-to-string on the simple
decimal values the bridge handles. -/
def ratToString (q : Rat) : String :=
  let sign := if q < 0 then "-" else ""
  let n := q.num.natAbs
  let d := q.den
  if n % d = 0 then sign ++ toString (n / d)
  else sign ++ toString (n / d) ++ "." ++ fracDigits (n % d) d 17

/-- One hex digit, lowercase, as JS emits in escape sequences. -/
def hexDigitChar (n : Nat) : Char :=
  if n < 10 then Char.ofNat (48 + n) else Char.ofNat (87 + n)

/-- `JSON.stringify` escaping of one character inside a string literal. -/
def escapeJsonChar (c : Char) : String :=
  if c = dquote then "\\\""
  else if c = bslash then "\\\\"
  else if c = Char.ofNat 10 then "\\n"
  else if c = Char.ofNat 9 then "\\t"
  else if c = Char.ofNat 13 then "\\r"
  else if c = Char.ofNat 8 then "\\b"
  else if c = Char.ofNat 12 then "\\f"
  else if c.toNat < 32 then
    "\\u00" ++ String.singleton (hexDigitChar (c.toNat / 16)) ++ String.singleton (hexDigitChar (c.toNat % 16))
  else String.singleton c

/-- `JSON.stringify` escaping of a whole string body. -/
def escapeJson (s : String) : String :=
  String.join (s.toList.map escapeJsonChar)

/-- A JSON string literal: quotes around the escaped body. -/
def strQuote (s : String) : String := "\"" ++ escapeJson s ++ "\""

mutual

/-- `JSON.stringify`: `none` models the call returning `undefined`
(argument `undefined`); object fields bound to `undefined` are omitted,
array holes print as `null`, exactly as in JS. -/
def jsonStringify : JsVal → Option String
  | .undefined => none
  | .null => some "null"
  | .bool b => some (cond b "true" "false")
  | .num q => some (ratToString q)
  | .str s => some (strQuote s)
  | .arr xs => some ("[" ++ String.intercalate "," (stringifyElems xs) ++ "]")
  | .obj fs => some ("\x7b" ++ String.intercalate "," (stringifyFields fs) ++ "\x7d")

def stringifyElems : List JsVal → List String
  | [] => []
  | x :: xs => (jsonStringify x).getD "null" :: stringifyElems xs

def stringifyFields : List (String × JsVal) → List String
  | [] => []
  | (k, v) :: fs =>
    match jsonStringify v with
    | none => stringifyFields fs
    | some sv => (strQuote k ++ ":" ++ sv) :: stringifyFields fs

end

/-- `JSON.stringify` at a call site whose argument is statically a defined
value (an object or array literal), where the JS result is a string. -/
def stringifyD (v : JsVal) : String := (jsonStringify v).getD "undefined"

mutual

/-- JS string coercion (`"" + v`): arrays join their elements with commas
(null/undefined elements print empty), plain objects print
"[object Object]". -/
def jsToString : JsVal → String
  | .undefined => "undefined"
  | .null => "null"
  | .bool b => cond b "true" "false"
  | .num q => ratToString q
  | .str s => s
  | .arr xs => String.intercalate "," (jsToStringElems xs)
  | .obj _ => "[object Object]"

def jsToStringElems : List JsVal → List String
  | [] => []
  | x :: xs =>
    (match x with
     | .null => ""
     | .undefined => ""
     | v => jsToString v) :: jsToStringElems xs

end

/-- Does the pattern occur at the head of the characters? -/
def listStartsWith : List Char → List Char → Bool
  | [], _ => true
  | _ :: _, [] => false
  | p :: ps, c :: cs => p = c && listStartsWith ps cs

/-- The characters after the first occurrence of the pattern, if any. -/
def afterFirst (pat : List Char) : List Char → Option (List Char)
  | [] => if listStartsWith pat [] then some [] else none
  | c :: cs =>
    if listStartsWith pat (c :: cs) then some (List.drop pat.length (c :: cs))
    else afterFirst pat cs

/-- The characters before the first occurrence of the pattern (all of
them when the pattern does not occur). -/
def upToFirst (pat : List Char) : List Char → List Char
  | [] => []
  | c :: cs => if listStartsWith pat (c :: cs) then [] else c :: upToFirst pat cs

/-- Substring test, as `String.prototype.includes` for a fixed non-empty
pattern. -/
def strContains (s pat : String) : Bool :=
  (afterFirst pat.toList s.toList).isSome

/-- JS whitespace as removed by `String.prototype.trim` (the common ASCII
whitespace; exotic unicode spaces do not occur in the bridge's data). -/
def isJsSpace (c : Char) : Bool :=
  c = ' ' ∨ c = Char.ofNat 9 ∨ c = Char.ofNat 10 ∨ c = Char.ofNat 13
    ∨ c = Char.ofNat 11 ∨ c = Char.ofNat 12

/-- Drop leading JS whitespace characters. -/
def dropLeadingWs : List Char → List Char
  | [] => []
  | c :: cs => if isJsSpace c then dropLeadingWs cs else c :: cs

/-- `String.prototype.trim`. -/
def jsTrim (s : String) : String :=
  String.mk ((dropLeadingWs ((dropLeadingWs s.toList).reverse)).reverse)

/-- Digits at the front of a character list. -/
def takeDigits : List Char → List Char × List Char
  | [] => ([], [])
  | c :: cs =>
    if c.isDigit then
      let (ds, rest) := takeDigits cs
      (c :: ds, rest)
    else ([], c :: cs)

/-- Decimal digits to a natural number. -/
def digitsToNat (ds : List Char) : Nat :=
  ds.foldl (fun acc c => acc * 10 + (c.toNat - 48)) 0

/-- JS ToNumber on a string (used only through truthiness-adjacent
comparisons): trimmed empty string is 0, simple signed decimals convert,
anything else is NaN (`none`).  Hex/exponent string forms are treated as
NaN here; the bridge never compares such strings. -/
def strToNumber (s : String) : Option Rat :=
  let cs := (jsTrim s).toList
  if cs = [] then some 0
  else
    let (neg, cs1) := match cs with
      | '-' :: r => (true, r)
      | '+' :: r => (false, r)
      | _ => (false, cs)
    let (ds, cs2) := takeDigits cs1
    let (fds, cs3) := match cs2 with
      | '.' :: r => takeDigits r
      | _ => ([], cs2)
    if cs3 = [] ∧ (ds ≠ [] ∨ fds ≠ []) then
      let m : Rat := (digitsToNat ds : Rat) + (digitsToNat fds : Rat) / ((10 : Rat) ^ fds.length)
      some (if neg then -m else m)
    else none

/-- JS ToNumber; `none` models NaN.  Object/array-to-primitive coercion is
modelled as NaN (the bridge never numerically compares objects). -/
def toNumber : JsVal → Option Rat
  | .undefined => none
  | .null => some 0
  | .bool b => some (cond b 1 0)
  | .num q => some q
  | .str s => strToNumber s
  | .arr _ => none
  | .obj _ => none

/-- The JS comparison `v > 0` (false when `v` coerces to NaN). -/
def jsGtZero (v : JsVal) : Bool :=
  match toNumber v with
  | some q => decide (0 < q)
  | none => false

/-- JS `.length` read: array/string length; on plain objects the `length`
property; `undefined` otherwise. -/
def getLength : JsVal → JsVal
  | .arr xs => .num xs.length
  | .str s => .num s.length
  | .obj fs => lookupField fs "length"
  | _ => .undefined

/-- JSON whitespace. -/
def isWsChar (c : Char) : Bool :=
  c = ' ' ∨ c = Char.ofNat 10 ∨ c = Char.ofNat 9 ∨ c = Char.ofNat 13

/-- Drop leading JSON whitespace. -/
def skipWs : List Char → List Char
  | [] => []
  | c :: cs => if isWsChar c then skipWs cs else c :: cs

/-- Value of one hex digit, if any. -/
def hexCharVal (c : Char) : Option Nat :=
  if c.isDigit then some (c.toNat - 48)
  else if 'a' ≤ c ∧ c ≤ 'f' then some (c.toNat - 87)
  else if 'A' ≤ c ∧ c ≤ 'F' then some (c.toNat - 55)
  else none

/-- Body of a JSON string literal after the opening quote. -/
def parseStrBody : List Char → String → Option (String × List Char)
  | [], _ => none
  | c :: rest, acc =>
    if c = dquote then some (acc, rest)
    else if c = bslash then
      match rest with
      | [] => none
      | e :: rest2 =>
        if e = dquote then parseStrBody rest2 (acc.push dquote)
        else if e = bslash then parseStrBody rest2 (acc.push bslash)
        else if e = '/' then parseStrBody rest2 (acc.push '/')
        else if e = 'n' then parseStrBody rest2 (acc.push (Char.ofNat 10))
        else if e = 't' then parseStrBody rest2 (acc.push (Char.ofNat 9))
        else if e = 'r' then parseStrBody rest2 (acc.push (Char.ofNat 13))
        else if e = 'b' then parseStrBody rest2 (acc.push (Char.ofNat 8))
        else if e = 'f' then parseStrBody rest2 (acc.push (Char.ofNat 12))
        else if e = 'u' then
          match rest2 with
          | h1 :: h2 :: h3 :: h4 :: rest3 =>
            match hexCharVal h1, hexCharVal h2, hexCharVal h3, hexCharVal h4 with
            | some a, some b, some c2, some d =>
              parseStrBody rest3 (acc.push (Char.ofNat (((a * 16 + b) * 16 + c2) * 16 + d)))
            | _, _, _, _ => none
          | _ => none
        else none
    else parseStrBody rest (acc.push c)

/-- JSON number tail: optional exponent after the mantissa. -/
def parseExpPart (m : Rat) (cs : List Char) : Option (JsVal × List Char) :=
  let (esign, cs1) := match cs with
    | '-' :: r => (true, r)
    | '+' :: r => (false, r)
    | _ => (false, cs)
  let (eds, cs2) := takeDigits cs1
  if eds = [] then none
  else
    let e := digitsToNat eds
    some (.num (if esign then m / ((10 : Rat) ^ e) else m * ((10 : Rat) ^ e)), cs2)

/-- JSON number mantissa continuation. -/
def parseNumTail (neg : Bool) (ip : Nat) (fds : List Char) (cs : List Char) :
    Option (JsVal × List Char) :=
  let mantissa : Rat := (ip : Rat) + (digitsToNat fds : Rat) / ((10 : Rat) ^ fds.length)
  let signed : Rat := if neg then -mantissa else mantissa
  match cs with
  | 'e' :: r => parseExpPart signed r
  | 'E' :: r => parseExpPart signed r
  | _ => some (.num signed, cs)

/-- A JSON number starting at the given characters. -/
def parseNum (cs : List Char) : Option (JsVal × List Char) :=
  let (neg, cs1) := match cs with
    | '-' :: rest => (true, rest)
    | _ => (false, cs)
  let (ds, cs2) := takeDigits cs1
  if ds = [] then none
  else
    match cs2 with
    | '.' :: r =>
      let (fds, cs3) := takeDigits r
      if fds = [] then none else parseNumTail neg (digitsToNat ds) fds cs3
    | _ => parseNumTail neg (digitsToNat ds) [] cs2

/-- Assignment of an object member while parsing: a duplicate key keeps
its original position and takes the later value, as in JS. -/
def setField : List (String × JsVal) → String → JsVal → List (String × JsVal)
  | [], k, v => [(k, v)]
  | (k', v') :: fs, k, v =>
    if k' = k then (k, v) :: fs else (k', v') :: setField fs k v

mutual

/-- One JSON value; the fuel bounds bracket-nesting depth (each level
consumes at least one character, so `length + 1` fuel always suffices). -/
def parseVal : Nat → List Char → Option (JsVal × List Char)
  | 0, _ => none
  | fuel + 1, cs0 =>
    match skipWs cs0 with
    | [] => none
    | c :: rest =>
      if c = 'n' then
        match rest with
        | 'u' :: 'l' :: 'l' :: r => some (.null, r)
        | _ => none
      else if c = 't' then
        match rest with
        | 'r' :: 'u' :: 'e' :: r => some (.bool true, r)
        | _ => none
      else if c = 'f' then
        match rest with
        | 'a' :: 'l' :: 's' :: 'e' :: r => some (.bool false, r)
        | _ => none
      else if c = dquote then
        match parseStrBody rest "" with
        | some (s, r) => some (.str s, r)
        | none => none
      else if c = '[' then parseArrItems fuel (skipWs rest) [] true
      else if c = lbrace then parseObjItems fuel (skipWs rest) [] true
      else if c = '-' ∨ c.isDigit then parseNum (c :: rest)
      else none

/-- Items of a JSON array, positioned at the start of an item (or at the
closing bracket when the array is empty). -/
def parseArrItems : Nat → List Char → List JsVal → Bool → Option (JsVal × List Char)
  | 0, _, _, _ => none
  | fuel + 1, cs, acc, first =>
    match cs with
    | ']' :: r => if first then some (.arr [], r) else none
    | _ =>
      match parseVal fuel cs with
      | none => none
      | some (v, r1) =>
        match skipWs r1 with
        | ',' :: r2 => parseArrItems fuel (skipWs r2) (acc ++ [v]) false
        | ']' :: r2 => some (.arr (acc ++ [v]), r2)
        | _ => none

/-- Members of a JSON object; duplicate keys keep the first position with
the later value, as in JS. -/
def parseObjItems : Nat → List Char → List (String × JsVal) → Bool → Option (JsVal × List Char)
  | 0, _, _, _ => none
  | fuel + 1, cs, acc, first =>
    match cs with
    | [] => none
    | c :: r =>
      if c = rbrace ∧ first then some (.obj [], r)
      else if c = dquote then
        match parseStrBody r "" with
        | none => none
        | some (k, r1) =>
          match skipWs r1 with
          | ':' :: r2 =>
            match parseVal fuel r2 with
            | none => none
            | some (v, r3) =>
              match skipWs r3 with
              | ',' :: r4 => parseObjItems fuel (skipWs r4) (setField acc k v) false
              | c2 :: r4 => if c2 = rbrace then some (.obj (setField acc k v), r4) else none
              | [] => none
          | _ => none
      else none

end

/-- `JSON.parse`: `none` models a thrown SyntaxError. -/
def jsonParse (s : String) : Option JsVal :=
  match parseVal (s.length + 1) s.toList with
  | some (v, rest) => if skipWs rest = [] then some v else none
  | none => none

/-- Representative message of the TypeError thrown by reading a property
of null/undefined; no theorem depends on its wording. -/
def typeErrNullRead : String := "Cannot read properties of null"

/-- Representative message of the TypeError thrown by calling `.map` on a
non-array; no theorem depends on its wording. -/
def typeErrNotFunction : String := "map is not a function"

/-- Representative message of the SyntaxError thrown by `JSON.parse`; no
theorem depends on its wording. -/
def badJsonMsg : String := "Unexpected token in JSON"

/-- `e.message || String(e)` on a caught error: an empty message falls
back to the error's string form. -/
def jsErrorText (msg : String) : String := if msg = "" then "Error" else msg

/-- bridge.js lines 147-149: the description of one entry of
`m.tool_calls`; reading properties of a null/undefined entry throws. -/
def callDescList : List JsVal → Except String (List String)
  | [] => .ok []
  | tc :: rest =>
    match tc with
    | .null => .error typeErrNullRead
    | .undefined => .error typeErrNullRead
    | _ => do
      let rest' ← callDescList rest
      .ok (("Called " ++ jsToString (getField tc "name") ++ " with "
            ++ (jsonStringify (getField tc "arguments")).getD "undefined") :: rest')

/-- bridge.js lines 140-153: the per-message conversion callback of the
WebLLM compatibility pass (`tool` role to prefixed `user` message,
assistant tool_calls flattened to prose, other roles passed through with
stringified content). -/
def mapMessage (m : JsVal) : Except String JsVal :=
  match m with
  | .null => .error typeErrNullRead
  | .undefined => .error typeErrNullRead
  | _ =>
    if getField m "role" = .str "tool" then
      let toolName := if truthy (getField m "tool_call_id") then getField m "tool_call_id" else .str "unknown"
      let contentStr :=
        match getField m "content" with
        | .str s => s
        | c => (jsonStringify c).getD "undefined"
      .ok (.obj [("role", .str "user"),
                 ("content", .str ("[Tool result from " ++ jsToString toolName ++ "]: " ++ contentStr))])
    else if getField m "role" = .str "assistant" ∧ truthy (getField m "tool_calls")
            ∧ jsGtZero (getLength (getField m "tool_calls")) then
      match getField m "tool_calls" with
      | .arr tcs => do
        let descs ← callDescList tcs
        .ok (.obj [("role", .str "assistant"), ("content", .str (String.intercalate "; " descs))])
      | _ => .error typeErrNotFunction
    else
      .ok (.obj [("role", getField m "role"),
                 ("content",
                   match getField m "content" with
                   | .str s => .str s
                   | c => .str (stringifyD (if truthy c then c else .str "")))])

/-- `messages.map(...)` over the conversion callback: sequential, first
thrown error propagates. -/
def mapMessages : List JsVal → Except String (List JsVal)
  | [] => .ok []
  | m :: rest => do
    let m' ← mapMessage m
    let rest' ← mapMessages rest
    .ok (m' :: rest')

/-- bridge.js lines 157-160: one line of the tool description block per
tool spec. -/
def toolDescList : List JsVal → Except String (List String)
  | [] => .ok []
  | t :: rest =>
    match t with
    | .null => .error typeErrNullRead
    | .undefined => .error typeErrNullRead
    | _ => do
      let rest' ← toolDescList rest
      .ok (("- " ++ jsToString (getField t "name") ++ ": " ++ jsToString (getField t "description")
            ++ "\n  Parameters: " ++ (jsonStringify (getField t "parameters")).getD "undefined") :: rest')

/-- `tools.map(...).join("\n")`. -/
def toolDescriptions (ts : List JsVal) : Except String String := do
  let l ← toolDescList ts
  .ok (String.intercalate "\n" l)

/-- bridge.js lines 167-174: system prompt when tools are offered. -/
def longSystemContent (toolDescs : String) : String :=
  "You are a helpful assistant with access to tools. " ++
  "When the user's request requires using a tool, respond with a tool_call. " ++
  "When you can answer directly, respond with text. " ++
  "You MUST respond with valid JSON matching the required schema.\n\n" ++
  "Available tools:\n" ++ toolDescs ++ "\n\n" ++
  "Response format:\n" ++
  "For text: \x7b\"type\": \"text\", \"content\": \"your response\"\x7d\n" ++
  "For tool use: \x7b\"type\": \"tool_call\", \"name\": \"tool_name\", \"arguments\": \x7b\"param\": \"value\"\x7d\x7d"

/-- bridge.js lines 176-177: system prompt when no tools are offered. -/
def shortSystemContent : String :=
  "You are a helpful assistant. " ++
  "Respond with valid JSON: \x7b\"type\": \"text\", \"content\": \"your response\"\x7d"

/-- bridge.js lines 156-178: tool descriptions then the system content
choice on `tools.length > 0`. -/
def systemContentFor (ts : List JsVal) : Except String String := do
  let descs ← toolDescriptions ts
  .ok (if ts.length > 0 then longSystemContent descs else shortSystemContent)

/-- The system message object built at lines 183 and 185. -/
def systemMsgObj (sc : String) : JsVal :=
  .obj [("role", .str "system"), ("content", .str sc)]

/-- bridge.js lines 163, 180-186: replace the leading system message of
the already-transformed history (via slice-copy and index assignment) or
prepend one. -/
def applySystemMessage (sc : String) (mapped : List JsVal) : List JsVal :=
  match mapped with
  | [] => [systemMsgObj sc]
  | m :: rest =>
    if getField m "role" = .str "system" then systemMsgObj sc :: rest
    else systemMsgObj sc :: m :: rest

/-- The full message normalization of bridge.js lines 140-186 (the spec's
MessageNormalizer): the conversion pass followed by the system-message
build/replace, for a given tool list. -/
def normalizeMessages (ts : List JsVal) (msgs : List JsVal) : Except String (List JsVal) := do
  let mapped ← mapMessages msgs
  let sc ← systemContentFor ts
  .ok (applySystemMessage sc mapped)

/-- The `name` enumeration of the tool-call variant:
`tools.map(function(t) \x7b return t.name; \x7d)` (bridge.js line 62). -/
def enumListOf (tools : List JsVal) : List JsVal :=
  tools.map (fun t => getField t "name")

/-- bridge.js lines 50-57: the free-text variant of the constrained
decoding schema. -/
def textVariant : JsVal :=
  .obj [("type", .str "object"),
        ("properties", .obj
          [("type", .obj [("type", .str "string"), ("const", .str "text")]),
           ("content", .obj [("type", .str "string")])]),
        ("required", .arr [.str "type", .str "content"])]

/-- bridge.js lines 58-66: the tool-call variant of the constrained
decoding schema, with the offered tool names as the `name` enum. -/
def toolVariant (tools : List JsVal) : JsVal :=
  .obj [("type", .str "object"),
        ("properties", .obj
          [("type", .obj [("type", .str "string"), ("const", .str "tool_call")]),
           ("name", .obj [("type", .str "string"), ("enum", .arr (enumListOf tools))]),
           ("arguments", .obj [("type", .str "object")])]),
        ("required", .arr [.str "type", .str "name", .str "arguments"])]

/-- bridge.js lines 48-68: the `oneOf` union over the two variants. -/
def schemaVal (tools : List JsVal) : JsVal :=
  .obj [("oneOf", .arr [textVariant, toolVariant tools])]

/-- bridge.js lines 47-70 `buildToolCallSchema`: the JSON-stringified
union schema. -/
def buildToolCallSchema (tools : List JsVal) : String :=
  stringifyD (schemaVal tools)

/-- bridge.js lines 193-200: the text-only schema used when the request
offers no tools. -/
def textOnlySchemaVal : JsVal :=
  .obj [("type", .str "object"),
        ("properties", .obj
          [("type", .obj [("type", .str "string"), ("const", .str "text")]),
           ("content", .obj [("type", .str "string")])]),
        ("required", .arr [.str "type", .str "content"])]

/-- bridge.js lines 203-212: the object passed to the single
`webllmEngine.chat.completions.create` call.  `||` supplies the defaults,
so falsy `temperature`/`max_tokens` (absent, null, 0) fall back. -/
def completionParamsObj (req : JsVal) (messages2 : List JsVal) (schema : String) : JsVal :=
  .obj [("stream", .bool false),
        ("messages", .arr messages2),
        ("temperature", if truthy (getField req "temperature") then getField req "temperature" else .num ((7 : Rat) / 10)),
        ("max_tokens", if truthy (getField req "max_tokens") then getField req "max_tokens" else .num 2048),
        ("response_format", .obj [("type", .str "json_object"), ("schema", .str schema)])]

/-- `.map` requires an array receiver; anything else throws. -/
def asArrE : JsVal → Except String (List JsVal)
  | .arr xs => .ok xs
  | _ => .error typeErrNotFunction

/-- Property access that can throw: reading on null/undefined. -/
def jsGetE (v : JsVal) (k : String) : Except String JsVal :=
  match v with
  | .null => .error typeErrNullRead
  | .undefined => .error typeErrNullRead
  | _ => .ok (getField v k)

/-- JS indexing `v[0]`: throws on null/undefined, otherwise the element,
the "0" property, the first character, or undefined. -/
def jsIndex0E : JsVal → Except String JsVal
  | .null => .error typeErrNullRead
  | .undefined => .error typeErrNullRead
  | .arr xs => .ok (xs.headD .undefined)
  | .obj fs => .ok (lookupField fs "0")
  | .str s => .ok (match s.toList with
      | [] => .undefined
      | c :: _ => .str (String.singleton c))
  | _ => .ok .undefined

/-- bridge.js lines 134-212 inside the `try`: parse request fields,
convert messages, build tool descriptions and system message, choose the
schema, and assemble the completion parameters. -/
def llmPrepare (req : JsVal) : Except String JsVal := do
  let msgsV ← jsGetE req "messages"
  let msgs0 := if truthy msgsV then msgsV else .arr []
  let msgsList ← asArrE msgs0
  let mapped ← mapMessages msgsList
  let tools0 := if truthy (getField req "tools") then getField req "tools" else .arr []
  let ts ← asArrE tools0
  let sc ← systemContentFor ts
  let messages2 := applySystemMessage sc mapped
  let schema := if ts.length > 0 then buildToolCallSchema ts else stringifyD textOnlySchemaVal
  .ok (completionParamsObj req messages2 schema)

/-- bridge.js line 215: `completion.choices[0].message.content`. -/
def extractContent (completion : JsVal) : Except String JsVal := do
  let choices ← jsGetE completion "choices"
  let c0 ← jsIndex0E choices
  let msg ← jsGetE c0 "message"
  jsGetE msg "content"

/-- bridge.js line 241: the capture of
`/Got outputMessage: ([\s\S]*?)(?:Got error:|$)/` — the text after the
first start marker, cut at the first "Got error:" if any; `none` when the
start marker is absent (the regex match is null). -/
def extractOutput (msg : String) : Option String :=
  match afterFirst "Got outputMessage: ".toList msg.toList with
  | none => none
  | some rest => some (String.mk (upToFirst "Got error:".toList rest))

/-- The plain-text assistant `CompletionResponse` shape produced by the
recovery paths and the text branch. -/
def assistantTextResp (c : String) : JsVal :=
  .obj [("role", .str "assistant"), ("content", .str c), ("tool_calls", .arr [])]

/-- bridge.js lines 237-254: the `catch` handler of `amplifier_llm_complete`:
if the message carries the backend's "parsing outputMessage" marker,
return the extracted free text (or a fixed apology when the capture
fails); otherwise return "Error: " + message. -/
def llmRecovery (msg : String) : String :=
  if msg ≠ "" ∧ strContains msg "parsing outputMessage" then
    let text :=
      match extractOutput msg with
      | some t => jsTrim t
      | none => "I encountered an error processing your request."
    stringifyD (assistantTextResp text)
  else stringifyD (assistantTextResp ("Error: " ++ msg))

/-- Outcome of the awaited backend completion call: a resolved completion
object or a rejection carrying an error message. -/
inductive BackendOutcome where
  | ret (completion : JsVal)
  | thrown (msg : String)

/-- bridge.js lines 214-235: read the completion content, `|| "\x7b\x7d"`,
parse it, and branch on `output.type`.  `.ok none` is the fall-through
when the parsed type is present but neither "tool_call" nor "text": no
`return` statement runs and the function resolves with `undefined`. -/
def llmFinish (completion : JsVal) (idSuffix : String) : Except String (Option String) := do
  let content ← extractContent completion
  let contentOr := if truthy content then content else .str "\x7b\x7d"
  let out ← (match jsonParse (jsToString contentOr) with
    | some v => Except.ok v
    | none => Except.error badJsonMsg)
  if getField out "type" = .str "tool_call" then
    .ok (some (stringifyD (.obj
      [("role", .str "assistant"), ("content", .str ""),
       ("tool_calls", .arr [.obj
         [("id", .str ("call_" ++ idSuffix)),
          ("name", getField out "name"),
          ("arguments", if truthy (getField out "arguments") then getField out "arguments" else .obj [])]])])))
  else if getField out "type" = .str "text" ∨ truthy (getField out "type") = false then
    .ok (some (stringifyD (.obj
      [("role", .str "assistant"),
       ("content", if truthy (getField out "content") then getField out "content" else .str ""),
       ("tool_calls", .arr [])])))
  else .ok none

/-- bridge.js lines 128-255 `window.amplifier_llm_complete`.  The engine
readiness flag models `webllmEngine`; `backend` models the completion
call (its argument is the params object actually passed); `idSuffix`
models the `Math.random().toString(36).substr(2, 9)` draw.  Result: the
resolved value (`none` = resolved with `undefined`) and the list of
params objects passed to the backend. -/
def amplifier_llm_complete (engineReady : Bool) (backend : JsVal → BackendOutcome)
    (idSuffix : String) (requestJson : String) : Option String × List JsVal :=
  match engineReady with
  | false => (some (stringifyD (.obj [("error", .str "WebLLM not initialized")])), [])
  | true =>
    match jsonParse requestJson with
    | none => (some (llmRecovery badJsonMsg), [])
    | some req =>
      match llmPrepare req with
      | .error e => (some (llmRecovery e), [])
      | .ok params =>
        match backend params with
        | .thrown msg => (some (llmRecovery msg), [params])
        | .ret completion =>
          match llmFinish completion idSuffix with
          | .error e => (some (llmRecovery e), [params])
          | .ok r => (r, [params])

/-- Outcome of awaiting a registered executor. -/
inductive ExecOutcome where
  | ret (v : JsVal)
  | thrown (msg : String)

/-- A registry entry: language tag plus capability executor
(bridge.js lines 74-105). -/
structure ToolEntry where
  language : String
  execute : JsVal → ExecOutcome

/-- The failure envelope built in the dispatch `catch`. -/
def errEnvelope (msg : String) : JsVal :=
  .obj [("success", .bool false), ("error", .str msg)]

/-- The member names every plain object literal inherits from
`Object.prototype`, all bound to truthy values (functions, and the
`__proto__` accessor's object). -/
def objectProtoNames : List String :=
  ["constructor", "hasOwnProperty", "isPrototypeOf", "propertyIsEnumerable",
   "toLocaleString", "toString", "valueOf", "__proto__",
   "__defineGetter__", "__defineSetter__", "__lookupGetter__", "__lookupSetter__"]

/-- What `toolRegistry[name]` yields on the object literal: a registered
entry, a truthy member inherited from `Object.prototype` (whose
`language` and `execute` properties are `undefined`), or `undefined`. -/
inductive RegistryHit where
  | entry (t : ToolEntry)
  | protoFn
  | missing

/-- `const tool = toolRegistry[name]`: own keys first, then the
prototype chain of the object literal, else `undefined`. -/
def registryGet (registry : List (String × ToolEntry)) (name : String) : RegistryHit :=
  match registry.lookup name with
  | some t => .entry t
  | none => if name ∈ objectProtoNames then .protoFn else .missing

/-- The TypeError message of calling `tool.execute` when `tool` is an
inherited `Object.prototype` member; no theorem depends on its wording. -/
def protoErrMsg : String := "tool.execute is not a function"

/-- bridge.js lines 108-124 `window.amplifier_execute_tool`.  Result: the
resolved value (`none` = resolved with `undefined`, possible when a
non-string executor result stringifies to nothing) and the ordered list
of `updateToolUI` status events `(name, language, status)`; the language
slot is a JS value because `tool.language` is `undefined` when the
lookup hit the prototype chain.  For such a hit, `!tool` is false, so
dispatch proceeds: `JSON.parse` runs, "running" is emitted, and calling
the `undefined` `tool.execute` throws a TypeError caught by the handler. -/
def amplifier_execute_tool (registry : List (String × ToolEntry)) (name inputJson : String) :
    Option String × List (String × JsVal × String) :=
  match registryGet registry name with
  | .missing =>
    (some (stringifyD (.obj [("success", .bool false), ("error", .str ("Unknown tool: " ++ name))])), [])
  | .protoFn =>
    match jsonParse inputJson with
    | none =>
      (some (stringifyD (errEnvelope (jsErrorText badJsonMsg))),
       [(name, .undefined, "error")])
    | some _ =>
      (some (stringifyD (errEnvelope (jsErrorText protoErrMsg))),
       [(name, .undefined, "running"), (name, .undefined, "error")])
  | .entry tool =>
    match jsonParse inputJson with
    | none =>
      (some (stringifyD (errEnvelope (jsErrorText badJsonMsg))),
       [(name, .str tool.language, "error")])
    | some input =>
      match tool.execute input with
      | .thrown m =>
        (some (stringifyD (errEnvelope (jsErrorText m))),
         [(name, .str tool.language, "running"), (name, .str tool.language, "error")])
      | .ret v =>
        match v with
        | .str s =>
          match jsonParse s with
          | none =>
            (some (stringifyD (errEnvelope (jsErrorText badJsonMsg))),
             [(name, .str tool.language, "running"), (name, .str tool.language, "complete"),
              (name, .str tool.language, "error")])
          | some w =>
            (jsonStringify w,
             [(name, .str tool.language, "running"), (name, .str tool.language, "complete")])
        | _ =>
          (jsonStringify v,
           [(name, .str tool.language, "running"), (name, .str tool.language, "complete")])

/-- A store of array objects.  Arrays are the only values mutated by the
normalization (the single `messages[0] = ...` assignment); message
objects are held by value because no statement in lines 140-186 mutates
an object's fields, so object identity is unobservable there. -/
abbrev Store := List (List JsVal)

/-- Store-level reading of bridge.js lines 140-186: `map` allocates a new
array, `slice()` allocates a copy, the index assignment mutates only that
copy, and `concat` allocates the prepended array.  Returns the final
store and the reference of the output array. -/
def heapNormalize (st : Store) (msgsRef : Nat) (systemContent : String) :
    Except String (Store × Nat) :=
  match st.get? msgsRef with
  | none => .error typeErrNotFunction
  | some elems =>
    match mapMessages elems with
    | .error e => .error e
    | .ok mapped =>
      let st1 := st ++ [mapped]
      let sys := systemMsgObj systemContent
      match mapped with
      | m :: restM =>
        if getField m "role" = .str "system" then
          let st2 := st1 ++ [m :: restM]
          .ok (st2.set st1.length (sys :: restM), st1.length)
        else .ok (st1 ++ [sys :: m :: restM], st1.length)
      | [] => .ok (st1 ++ [[sys]], st1.length)

/-- Does the instance carry the field? (`JSON.parse` output never maps a
present field to `undefined`.) -/
def hasFieldB : JsVal → String → Bool
  | .obj fs, k => fs.any (fun p => p.1 == k)
  | _, _ => false

/-- `required`: every listed key is present. -/
def checkRequired (vs : List JsVal) (inst : JsVal) : Bool :=
  vs.all (fun v => match v with
    | .str k => hasFieldB inst k
    | _ => true)

/-- JSON Schema validation for the keyword subset the bridge's schemas
use: `oneOf` (exactly one branch validates), `type` object/string,
`const`, `enum`, `properties` (applied to present fields), `required`.
The fuel bounds schema nesting depth. -/
def validateF : Nat → JsVal → JsVal → Bool
  | 0, _, _ => false
  | fuel + 1, s, inst =>
    match s with
    | .obj fs =>
      fs.all (fun kv =>
        match kv with
        | ("oneOf", .arr subs) => (subs.map (fun sub => validateF fuel sub inst)).count true == 1
        | ("type", .str "object") =>
          (match inst with
           | .obj _ => true
           | _ => false)
        | ("type", .str "string") =>
          (match inst with
           | .str _ => true
           | _ => false)
        | ("const", c) => inst == c
        | ("enum", .arr vs) => vs.contains inst
        | ("properties", .obj props) =>
          props.all (fun pkv =>
            match getField inst pkv.1 with
            | .undefined => true
            | v => validateF fuel pkv.2 v)
        | ("required", .arr vs) => checkRequired vs inst
        | _ => true)
    | _ => true

/-- Validation at a fuel far exceeding the constant nesting depth (6) of
every schema the bridge builds. -/
def validate (s inst : JsVal) : Bool := validateF 32 s inst

/-- A two-field role/content message object, the shape every output
message of the conversion pass has. -/
def mkMsg (r c : String) : JsVal :=
  .obj [("role", .str r), ("content", .str c)]

/-- The documented free-text example payload. -/
def textExample : JsVal :=
  .obj [("type", .str "text"), ("content", .str "hello")]

/-- The documented tool-call example payload for a given tool name. -/
def toolCallExample (n : String) : JsVal :=
  .obj [("type", .str "tool_call"), ("name", .str n), ("arguments", .obj [])]

/-- A registry with one echoing tool, used as a concrete fixture. -/
def echoRegistry : List (String × ToolEntry) := [("echo", ⟨"JS", fun v => .ret v⟩)]

/-- A registry whose tool throws "boom", as in the spec's dispatch
example. -/
def boomRegistry : List (String × ToolEntry) := [("boom", ⟨"TS", fun _ => .thrown "boom"⟩)]

/-- A backend returning parseable JSON whose `type` is present but is
neither "tool_call" nor "text". -/
def unrecognizedTypeBackend : JsVal → BackendOutcome := fun _ =>
  .ret (.obj [("choices", .arr [.obj [("message",
    .obj [("content", .str "\x7b\"type\":\"weird\"\x7d")])]])])

/-- A backend error message carrying both the "parsing outputMessage"
marker and the free-text capture, as WebLLM produces. -/
def c2msg : String :=
  "ToolCallOutputParseError: error parsing outputMessage. Got outputMessage: Hello there"

/-- A completion whose content is a tool-call JSON payload for "echo". -/
def c6completion : JsVal :=
  .obj [("choices", .arr [.obj [("message", .obj [("content",
    .str "\x7b\"type\":\"tool_call\",\"name\":\"echo\",\"arguments\":\x7b\"x\":1\x7d\x7d")])]])]

/-- Reduction of `Except` bind on a success value. -/
theorem except_bind_ok {ε α β : Type} (a : α) (f : α → Except ε β) :
    (Except.ok a >>= f : Except ε β) = f a := rfl

/-- Reduction of `Except` bind on an error value. -/
theorem except_bind_err {ε α β : Type} (e : ε) (f : α → Except ε β) :
    (Except.error e >>= f : Except ε β) = Except.error e := rfl

/-- The conversion callback is the identity on a plain role/content
message whose role is in the backend's restricted vocabulary. -/
theorem mapMessage_fixed (r c : String)
    (hr : r = "system" ∨ r = "user" ∨ r = "assistant") :
    mapMessage (mkMsg r c) = .ok (mkMsg r c) := by
  rcases hr with h | h | h <;> subst h <;> rfl

/-- The conversion pass is the identity on a history of such messages. -/
theorem mapMessages_fixed (msgs : List JsVal)
    (h : ∀ m ∈ msgs, ∃ r c, m = mkMsg r c ∧ (r = "system" ∨ r = "user" ∨ r = "assistant")) :
    mapMessages msgs = .ok msgs := by
  induction msgs with
  | nil => rfl
  | cons m rest ih =>
    obtain ⟨r, c, hm, hr⟩ := h m (List.mem_cons_self m rest)
    unfold mapMessages
    rw [hm, mapMessage_fixed r c hr]
    rw [ih (fun x hx => h x (List.mem_cons_of_mem m hx))]
    rfl

/-- Every successful preparation step yields the completion-parameter
object built at bridge.js lines 203-212. -/
theorem llmPrepare_shape (req p : JsVal) (h : llmPrepare req = .ok p) :
    ∃ m2 schema, p = completionParamsObj req m2 schema := by
  unfold llmPrepare at h
  cases hg : jsGetE req "messages" with
  | error e => rw [hg, except_bind_err] at h; exact Except.noConfusion h
  | ok mv =>
    rw [hg] at h
    simp only [except_bind_ok] at h
    cases ha : asArrE (if truthy mv = true then mv else JsVal.arr []) with
    | error e => rw [ha, except_bind_err] at h; exact Except.noConfusion h
    | ok msgsList =>
      rw [ha] at h
      simp only [except_bind_ok] at h
      cases hmm2 : mapMessages msgsList with
      | error e => rw [hmm2, except_bind_err] at h; exact Except.noConfusion h
      | ok mapped =>
        rw [hmm2] at h
        simp only [except_bind_ok] at h
        cases ht : asArrE (if truthy (getField req "tools") = true then getField req "tools" else JsVal.arr []) with
        | error e => rw [ht, except_bind_err] at h; exact Except.noConfusion h
        | ok ts =>
          rw [ht] at h
          simp only [except_bind_ok] at h
          cases hsc : systemContentFor ts with
          | error e => rw [hsc, except_bind_err] at h; exact Except.noConfusion h
          | ok sc =>
            rw [hsc] at h
            simp only [except_bind_ok] at h
            injection h with h1
            exact ⟨applySystemMessage sc mapped,
              (if ts.length > 0 then buildToolCallSchema ts else stringifyD textOnlySchemaVal),
              h1.symm⟩

/-- Claim C1 (code bug): at the failing input — engine ready, any request,
backend returning parseable JSON whose `type` field is present but is
neither "tool_call" nor "text" — `amplifier_llm_complete` resolves with
`undefined` (no value at all), not with a well-formed CompletionResponse
or an error shape: no branch of lines 217-235 returns and the `catch`
does not run, contradicting the documented always-well-formed contract. -/
theorem c1_bug_unrecognized_type_resolves_undefined :
    (amplifier_llm_complete true unrecognizedTypeBackend "abc" "\x7b\x7d").fst = none := rfl

/-- Claim C2 counterexample: a backend error whose text embeds
"Got outputMessage: Hello there" but lacks the "parsing outputMessage"
marker is NOT recovered as "Hello there"; the adapter returns the
generic "Error: " + message response instead, so the claim as stated
fails. -/
theorem c2_counterexample :
    (amplifier_llm_complete true (fun _ => .thrown "Got outputMessage: Hello there") "s" "\x7b\x7d").fst
      = some (stringifyD (assistantTextResp "Error: Got outputMessage: Hello there"))
    ∧ stringifyD (assistantTextResp "Error: Got outputMessage: Hello there")
      ≠ stringifyD (assistantTextResp "Hello there") := by
  refine ⟨by rfl, by decide⟩

/-- Claim C2 (amended): for every error thrown by the backend whose
message additionally contains the marker "parsing outputMessage" and
whose capture between "Got outputMessage: " and "Got error:" (or end of
string) trims to "Hello there", `llm_complete` resolves with
role "assistant", content "Hello there", and empty tool_calls. -/
theorem c2_amended_recovery_extracts_text (rj idSuffix msg : String) (req : JsVal)
    (hparse : jsonParse rj = some req)
    (hprep : ∃ p, llmPrepare req = .ok p)
    (hne : msg ≠ "")
    (hmark : strContains msg "parsing outputMessage" = true)
    (hex : (extractOutput msg).map jsTrim = some "Hello there") :
    (amplifier_llm_complete true (fun _ => .thrown msg) idSuffix rj).fst
      = some (stringifyD (assistantTextResp "Hello there")) := by
  obtain ⟨p, hp⟩ := hprep
  unfold amplifier_llm_complete
  dsimp only
  rw [hparse]
  dsimp only
  rw [hp]
  dsimp only
  unfold llmRecovery
  rw [if_pos ⟨hne, hmark⟩]
  cases hoe : extractOutput msg with
  | none => rw [hoe] at hex; simp at hex
  | some t =>
    rw [hoe] at hex
    dsimp only [Option.map] at hex
    injection hex with htr
    dsimp only
    rw [htr]

/-- Claim C2 witness: the amended theorem applied to a concrete WebLLM
parse-failure message. -/
theorem c2_witness :
    (amplifier_llm_complete true (fun _ => .thrown c2msg) "s" "\x7b\x7d").fst
      = some (stringifyD (assistantTextResp "Hello there")) :=
  c2_amended_recovery_extracts_text "\x7b\x7d" "s" c2msg (.obj [])
    (by rfl) ⟨_, by rfl⟩ (by decide) (by rfl) (by rfl)

/-- Claim C3 counterexample: a dispatch of a registered name whose input
string is not valid JSON emits a single "error" status event — not the
claimed "running" followed by a terminal event — because `JSON.parse`
runs before the "running" emission. -/
theorem c3_counterexample :
    (amplifier_execute_tool echoRegistry "echo" "not json").snd
      = [("echo", JsVal.str "JS", "error")]
    ∧ [("echo", JsVal.str "JS", "error")].length ≠ 2 := by
  exact ⟨rfl, by decide⟩

/-- Claim C3 (amended): a dispatch of a name that is neither a registry
key nor an inherited `Object.prototype` member emits no status event.  A
dispatch of a registered name emits: a single "error" event when the
input string is not valid JSON; "running" then "error" when the input
parses and the executor throws; "running" then "complete" when the input
parses and the executor returns a value whose normalization does not
itself throw (a non-string value, or a string that parses as JSON); and
"running", "complete", "error" when the input parses and the executor
returns a string that does not parse as JSON.  (A non-key name hitting
the prototype chain — see C9 — behaves like a registered dispatch with a
broken entry, not like an unknown tool.) -/
theorem c3_amended_status_events (registry : List (String × ToolEntry)) (name inputJson : String) :
    (registry.lookup name = none → name ∉ objectProtoNames →
      (amplifier_execute_tool registry name inputJson).snd = [])
    ∧ (∀ tool, registry.lookup name = some tool → jsonParse inputJson = none →
        (amplifier_execute_tool registry name inputJson).snd
          = [(name, .str tool.language, "error")])
    ∧ (∀ tool input, registry.lookup name = some tool → jsonParse inputJson = some input →
        (∀ m, tool.execute input = .thrown m →
          (amplifier_execute_tool registry name inputJson).snd
            = [(name, .str tool.language, "running"), (name, .str tool.language, "error")])
        ∧ (∀ v, tool.execute input = .ret v →
            (match v with
             | .str s => (jsonParse s).isSome
             | _ => true) = true →
          (amplifier_execute_tool registry name inputJson).snd
            = [(name, .str tool.language, "running"), (name, .str tool.language, "complete")])
        ∧ (∀ s, tool.execute input = .ret (.str s) → jsonParse s = none →
          (amplifier_execute_tool registry name inputJson).snd
            = [(name, .str tool.language, "running"), (name, .str tool.language, "complete"),
               (name, .str tool.language, "error")])) := by
  refine ⟨?_, ?_, ?_⟩
  · intro hl hpn
    have hg : registryGet registry name = .missing := by
      unfold registryGet
      rw [hl]
      dsimp only
      rw [if_neg hpn]
    unfold amplifier_execute_tool
    rw [hg]
  · intro tool hl hp
    have hg : registryGet registry name = .entry tool := by
      unfold registryGet
      rw [hl]
    unfold amplifier_execute_tool
    rw [hg]
    dsimp only
    rw [hp]
  · intro tool input hl hp
    have hg : registryGet registry name = .entry tool := by
      unfold registryGet
      rw [hl]
    refine ⟨?_, ?_, ?_⟩
    · intro m hm
      unfold amplifier_execute_tool
      rw [hg]; dsimp only; rw [hp]; dsimp only; rw [hm]
    · intro v hv hok
      unfold amplifier_execute_tool
      rw [hg]; dsimp only; rw [hp]; dsimp only; rw [hv]
      cases v with
      | str s =>
        dsimp only
        cases hw : jsonParse s with
        | none => dsimp only at hok; rw [hw] at hok; simp at hok
        | some w => rfl
      | undefined => rfl
      | null => rfl
      | bool b => rfl
      | num q => rfl
      | arr xs => rfl
      | obj fs => rfl
    · intro str2 hv hs
      unfold amplifier_execute_tool
      rw [hg]; dsimp only; rw [hp]; dsimp only; rw [hv]; dsimp only; rw [hs]

/-- Claim C3 witness: the spec's own example — a registered executor
throwing "boom" emits "running" then "error". -/
theorem c3_witness :
    (amplifier_execute_tool boomRegistry "boom" "\x7b\x7d").snd
      = [("boom", JsVal.str "TS", "running"), ("boom", JsVal.str "TS", "error")] :=
  ((c3_amended_status_events boomRegistry "boom" "\x7b\x7d").2.2
    ⟨"TS", fun _ => .thrown "boom"⟩ (.obj []) rfl rfl).1 "boom" rfl

/-- Claim C4 counterexample: a request carrying `temperature: 0` — the
field present with value 0 — is issued to the backend with temperature
0.7, not 0, because line 206 uses `||`, which treats 0 as absent. -/
theorem c4_counterexample :
    getField (((amplifier_llm_complete true (fun _ => .thrown "boom") "s"
        "\x7b\"temperature\":0\x7d").snd).headD .undefined) "temperature" = .num ((7 : Rat) / 10)
    ∧ ((7 : Rat) / 10) ≠ (0 : Rat)
    ∧ getField ((jsonParse "\x7b\"temperature\":0\x7d").getD .undefined) "temperature" = .num 0 :=
  ⟨by with_unfolding_all rfl, by norm_num, by with_unfolding_all rfl⟩

/-- Claim C4 (amended): for every completion request that reaches the
backend, exactly one non-streaming call is issued, with temperature
equal to `request.temperature` when that field is truthy (present and
neither 0 nor null) and 0.7 otherwise, max_tokens equal to
`request.max_tokens` when truthy and 2048 otherwise, and a
response_format of type "json_object"; this holds for every backend
outcome. -/
theorem c4_amended_params (backend : JsVal → BackendOutcome) (idSuffix rj : String)
    (req p : JsVal)
    (hparse : jsonParse rj = some req)
    (hprep : llmPrepare req = .ok p) :
    (amplifier_llm_complete true backend idSuffix rj).snd = [p]
    ∧ getField p "stream" = .bool false
    ∧ getField p "temperature"
        = (if truthy (getField req "temperature") then getField req "temperature"
           else .num ((7 : Rat) / 10))
    ∧ getField p "max_tokens"
        = (if truthy (getField req "max_tokens") then getField req "max_tokens" else .num 2048)
    ∧ getField (getField p "response_format") "type" = .str "json_object" := by
  obtain ⟨m2, schema, hp⟩ := llmPrepare_shape req p hprep
  subst hp
  refine ⟨?_, rfl, rfl, rfl, rfl⟩
  unfold amplifier_llm_complete
  rw [hparse]
  dsimp only
  rw [hprep]
  dsimp only
  cases backend (completionParamsObj req m2 schema) with
  | thrown msg => rfl
  | ret completion =>
    dsimp only
    cases llmFinish completion idSuffix with
    | error e => rfl
    | ok r => rfl

/-- Claim C4 witness: a request with truthy temperature 2 is issued in a
single call whose temperature is 2. -/
theorem c4_witness :
    (amplifier_llm_complete true (fun _ => .thrown "boom") "s" "\x7b\"temperature\":2\x7d").snd
      = [completionParamsObj (.obj [("temperature", .num 2)])
          [systemMsgObj shortSystemContent] (stringifyD textOnlySchemaVal)]
    ∧ getField (completionParamsObj (.obj [("temperature", .num 2)])
          [systemMsgObj shortSystemContent] (stringifyD textOnlySchemaVal)) "temperature" = .num 2 := by
  have h := c4_amended_params (fun _ => .thrown "boom") "s" "\x7b\"temperature\":2\x7d"
      (.obj [("temperature", .num 2)])
      (completionParamsObj (.obj [("temperature", .num 2)])
        [systemMsgObj shortSystemContent] (stringifyD textOnlySchemaVal))
      (by with_unfolding_all rfl) (by with_unfolding_all rfl)
  exact ⟨h.1, h.2.2.1.trans (by with_unfolding_all rfl)⟩

/-- Claim C5: for every tool-spec list, `buildToolCallSchema` is the
stringified two-variant discriminated union; the tool-call name
enumeration equals the set of offered names exactly; the documented
free-text example payload validates against the schema, and the
documented tool-call example payload validates for every offered name.
The builder is a pure function of the tool list by construction. -/
theorem c5_schema_enum_and_examples (tools : List JsVal) :
    buildToolCallSchema tools = stringifyD (schemaVal tools)
    ∧ (∀ v, v ∈ enumListOf tools ↔ ∃ t ∈ tools, getField t "name" = v)
    ∧ validate (schemaVal tools) textExample = true
    ∧ (∀ t n, t ∈ tools → getField t "name" = .str n →
        validate (schemaVal tools) (toolCallExample n) = true) := by
  refine ⟨rfl, ?_, ?_, ?_⟩
  · intro v
    constructor
    · intro hv
      obtain ⟨t, ht, heq⟩ := List.mem_map.mp hv
      exact ⟨t, ht, heq⟩
    · rintro ⟨t, ht, heq⟩
      exact List.mem_map.mpr ⟨t, ht, heq⟩
  · rfl
  · intro t n ht hn
    have hcont : (enumListOf tools).contains (JsVal.str n) = true :=
      List.elem_iff.mpr (List.mem_map.mpr ⟨t, ht, hn⟩)
    have happ : (fun pkv =>
          match getField (toolCallExample n) pkv.1 with
          | JsVal.undefined => true
          | v => validateF 30 pkv.2 v)
        ("name", JsVal.obj [("type", JsVal.str "string"), ("enum", JsVal.arr (enumListOf tools))])
        = true := by
      show ((enumListOf tools).contains (JsVal.str n) && true) = true
      rw [hcont]
      rfl
    have key : ∀ b : Bool, b = true →
        ((List.count true [false, (b && true) && true] == 1) && true) = true := by decide
    exact key _ happ

/-- Claim C5 witness: with the single tool "echo", both documented
example payloads validate against the built schema. -/
theorem c5_witness :
    validate (schemaVal [.obj [("name", .str "echo")]]) textExample = true
    ∧ validate (schemaVal [.obj [("name", .str "echo")]]) (toolCallExample "echo") = true :=
  ⟨(c5_schema_enum_and_examples [.obj [("name", .str "echo")]]).2.2.1,
   (c5_schema_enum_and_examples [.obj [("name", .str "echo")]]).2.2.2
     (.obj [("name", .str "echo")]) "echo" (List.mem_singleton.mpr rfl) rfl⟩

/-- Claim C6: when the backend returns parseable JSON of shape
`\x7b"type":"tool_call","name":N,"arguments":A\x7d` (A an object, or
absent), `llm_complete` resolves with a CompletionResponse whose content
is the empty string and whose tool_calls is the one-element list with
the freshly generated non-empty id "call_" + draw, name N, and arguments
A, defaulting to the empty object when A is absent. -/
theorem c6_tool_call_response (rj idSuffix s : String) (req completion out A : JsVal)
    (hparse : jsonParse rj = some req)
    (hprep : ∃ p, llmPrepare req = .ok p)
    (hc : extractContent completion = .ok (.str s))
    (hs : s ≠ "")
    (hout : jsonParse s = some out)
    (htype : getField out "type" = .str "tool_call")
    (hargs : getField out "arguments" = A)
    (hA : A = .undefined ∨ ∃ fs, A = .obj fs) :
    (amplifier_llm_complete true (fun _ => .ret completion) idSuffix rj).fst
      = some (stringifyD (.obj
        [("role", .str "assistant"), ("content", .str ""),
         ("tool_calls", .arr [.obj
           [("id", .str ("call_" ++ idSuffix)),
            ("name", getField out "name"),
            ("arguments", if A = .undefined then .obj [] else A)]])]))
    ∧ ("call_" ++ idSuffix) ≠ "" := by
  have hfin : llmFinish completion idSuffix = .ok (some (stringifyD (.obj
        [("role", .str "assistant"), ("content", .str ""),
         ("tool_calls", .arr [.obj
           [("id", .str ("call_" ++ idSuffix)),
            ("name", getField out "name"),
            ("arguments", if A = .undefined then .obj [] else A)]])]))) := by
    unfold llmFinish
    rw [hc]
    simp only [except_bind_ok]
    have htrP : truthy (JsVal.str s) = true := by simp [truthy, hs]
    rw [if_pos htrP]
    have hjs : jsToString (JsVal.str s) = s := rfl
    rw [hjs, hout]
    simp only [except_bind_ok]
    rw [if_pos htype]
    rw [hargs]
    rcases hA with h | ⟨fs, h⟩ <;> subst h
    · rfl
    · rfl
  constructor
  · obtain ⟨p, hp⟩ := hprep
    unfold amplifier_llm_complete
    dsimp only
    rw [hparse]
    dsimp only
    rw [hp]
    dsimp only
    rw [hfin]
  · intro hemp
    have h2 := congrArg String.length hemp
    rw [String.length_append] at h2
    have h5 : "call_".length = 5 := rfl
    have h0 : ("" : String).length = 0 := rfl
    rw [h5, h0] at h2
    omega

/-- Claim C6 witness: the spec's example — one tool "echo" and a backend
returning the echo tool-call with arguments `\x7b"x":1\x7d`. -/
theorem c6_witness :
    (amplifier_llm_complete true (fun _ => .ret c6completion) "abc"
        "\x7b\"tools\":[\x7b\"name\":\"echo\",\"description\":\"d\",\"parameters\":\x7b\x7d\x7d]\x7d").fst
      = some (stringifyD (.obj
        [("role", .str "assistant"), ("content", .str ""),
         ("tool_calls", .arr [.obj
           [("id", .str ("call_" ++ "abc")),
            ("name", getField ((jsonParse "\x7b\"type\":\"tool_call\",\"name\":\"echo\",\"arguments\":\x7b\"x\":1\x7d\x7d").getD .undefined) "name"),
            ("arguments", if (JsVal.obj [("x", .num 1)]) = .undefined then .obj [] else (JsVal.obj [("x", .num 1)]))]])]))
    ∧ ("call_" ++ "abc") ≠ "" :=
  c6_tool_call_response
    "\x7b\"tools\":[\x7b\"name\":\"echo\",\"description\":\"d\",\"parameters\":\x7b\x7d\x7d]\x7d"
    "abc"
    "\x7b\"type\":\"tool_call\",\"name\":\"echo\",\"arguments\":\x7b\"x\":1\x7d\x7d"
    ((jsonParse "\x7b\"tools\":[\x7b\"name\":\"echo\",\"description\":\"d\",\"parameters\":\x7b\x7d\x7d]\x7d").getD .undefined)
    c6completion
    ((jsonParse "\x7b\"type\":\"tool_call\",\"name\":\"echo\",\"arguments\":\x7b\"x\":1\x7d\x7d").getD .undefined)
    (.obj [("x", .num 1)])
    (by with_unfolding_all rfl) ⟨_, by with_unfolding_all rfl⟩ (by rfl) (by decide)
    (by with_unfolding_all rfl) (by with_unfolding_all rfl) (by with_unfolding_all rfl)
    (Or.inr ⟨_, rfl⟩)

/-- Claim C7: the MessageNormalizer is the identity on its fixed points —
a history of plain role/content messages with roles restricted to
system/user/assistant, string contents, no tool fields, and a leading
system message already equal to the generated system content for the
given tools is returned unchanged, so re-applying the normalization
yields the same output. -/
theorem c7_normalizer_idempotent (ts : List JsVal) (sc : String) (rest : List JsVal)
    (hsc : systemContentFor ts = .ok sc)
    (hrest : ∀ m ∈ rest, ∃ r c, m = mkMsg r c ∧ (r = "system" ∨ r = "user" ∨ r = "assistant")) :
    normalizeMessages ts (mkMsg "system" sc :: rest) = .ok (mkMsg "system" sc :: rest) := by
  have hmap : mapMessages (mkMsg "system" sc :: rest) = .ok (mkMsg "system" sc :: rest) := by
    apply mapMessages_fixed
    intro m hm
    rcases List.mem_cons.mp hm with h | h
    · exact ⟨"system", sc, h, Or.inl rfl⟩
    · exact hrest m h
  unfold normalizeMessages
  rw [hmap]
  rw [hsc]
  rfl

/-- Claim C7 witness: a normalized tool-free history with the generated
(no-tools) system message is a fixed point. -/
theorem c7_witness :
    normalizeMessages [] [mkMsg "system" shortSystemContent, mkMsg "user" "hi"]
      = .ok [mkMsg "system" shortSystemContent, mkMsg "user" "hi"] :=
  c7_normalizer_idempotent [] shortSystemContent [mkMsg "user" "hi"] rfl
    (by intro m hm
        simp only [List.mem_singleton] at hm
        exact ⟨"user", "hi", hm, Or.inr (Or.inl rfl)⟩)

/-- Claim C8: at the store level, the normalization of lines 140-186
never mutates the caller's arrays — every array reference existing
before the call maps to the same contents afterwards (the single index
assignment hits only the freshly allocated slice) — and the output is a
newly allocated array, not the input. -/
theorem c8_normalizer_no_mutation (st : Store) (msgsRef : Nat) (sc : String)
    (st' : Store) (outRef : Nat)
    (h : heapNormalize st msgsRef sc = .ok (st', outRef)) :
    (∀ r, r < st.length → st'[r]? = st[r]?) ∧ st.length ≤ outRef := by
  unfold heapNormalize at h
  cases hg : st.get? msgsRef with
  | none => rw [hg] at h; exact Except.noConfusion h
  | some elems =>
    rw [hg] at h
    dsimp only at h
    cases hm : mapMessages elems with
    | error e => rw [hm] at h; exact Except.noConfusion h
    | ok mapped =>
      rw [hm] at h
      dsimp only at h
      cases mapped with
      | nil =>
        injection h with h1
        injection h1 with hst hout
        subst hst; subst hout
        constructor
        · intro r hr
          rw [List.getElem?_append_left (by simp; omega), List.getElem?_append_left hr]
        · simp
      | cons m restM =>
        dsimp only at h
        by_cases hrole : getField m "role" = JsVal.str "system"
        · rw [if_pos hrole] at h
          injection h with h1
          injection h1 with hst hout
          subst hst; subst hout
          constructor
          · intro r hr
            rw [List.getElem?_set_ne (by simp; omega),
                List.getElem?_append_left (by simp; omega),
                List.getElem?_append_left hr]
          · simp
        · rw [if_neg hrole] at h
          injection h with h1
          injection h1 with hst hout
          subst hst; subst hout
          constructor
          · intro r hr
            rw [List.getElem?_append_left (by simp; omega),
                List.getElem?_append_left hr]
          · simp

/-- Claim C8 witness: normalizing a one-message store leaves the original
array cell untouched and places the output at a fresh reference. -/
theorem c8_witness :
    ([[mkMsg "user" "hi"], [mkMsg "user" "hi"],
      [mkMsg "system" "S", mkMsg "user" "hi"]] : Store)[0]? = ([[mkMsg "user" "hi"]] : Store)[0]?
    ∧ ([[mkMsg "user" "hi"]] : Store).length ≤ 2 :=
  ⟨(c8_normalizer_no_mutation [[mkMsg "user" "hi"]] 0 "S"
      [[mkMsg "user" "hi"], [mkMsg "user" "hi"], [mkMsg "system" "S", mkMsg "user" "hi"]] 2 rfl).1
      0 (by decide),
   (c8_normalizer_no_mutation [[mkMsg "user" "hi"]] 0 "S"
      [[mkMsg "user" "hi"], [mkMsg "user" "hi"], [mkMsg "system" "S", mkMsg "user" "hi"]] 2 rfl).2⟩

/-- Claim C9 counterexample: "toString" is not a registered tool, yet
`dispatch("toString", "{}")` does not return the Unknown-tool envelope:
`toolRegistry["toString"]` finds the truthy inherited
`Object.prototype.toString`, dispatch proceeds, "running" and "error"
status events fire, and the result is the TypeError envelope. -/
theorem c9_counterexample :
    amplifier_execute_tool echoRegistry "toString" "\x7b\x7d"
      = (some (stringifyD (errEnvelope (jsErrorText protoErrMsg))),
         [("toString", JsVal.undefined, "running"), ("toString", JsVal.undefined, "error")])
    ∧ stringifyD (errEnvelope (jsErrorText protoErrMsg))
      ≠ stringifyD (.obj [("success", .bool false),
          ("error", .str ("Unknown tool: " ++ "toString"))])
    ∧ echoRegistry.lookup "toString" = none := by
  exact ⟨rfl, by decide, rfl⟩

/-- Claim C9 (amended): dispatching a name that is neither a registry
key nor an inherited `Object.prototype` member, with any input string,
resolves with the JSON-encoded envelope
`\x7b success: false, error: "Unknown tool: " + name \x7d` and emits no
status event; the registry (a read-only argument of the pure embedding)
is untouched.  A non-key name that is an `Object.prototype` member
instead proceeds past the lookup: with parseable input it emits
"running" then "error" and resolves with the TypeError envelope. -/
theorem c9_unknown_tool_envelope (registry : List (String × ToolEntry)) (name inputJson : String) :
    (registry.lookup name = none → name ∉ objectProtoNames →
      amplifier_execute_tool registry name inputJson
        = (some (stringifyD (.obj [("success", .bool false),
            ("error", .str ("Unknown tool: " ++ name))])), []))
    ∧ (∀ input, registry.lookup name = none → name ∈ objectProtoNames →
        jsonParse inputJson = some input →
        amplifier_execute_tool registry name inputJson
          = (some (stringifyD (errEnvelope (jsErrorText protoErrMsg))),
             [(name, .undefined, "running"), (name, .undefined, "error")])) := by
  constructor
  · intro hl hpn
    have hg : registryGet registry name = .missing := by
      unfold registryGet
      rw [hl]
      dsimp only
      rw [if_neg hpn]
    unfold amplifier_execute_tool
    rw [hg]
  · intro input hl hpn hp
    have hg : registryGet registry name = .protoFn := by
      unfold registryGet
      rw [hl]
      dsimp only
      rw [if_pos hpn]
    unfold amplifier_execute_tool
    rw [hg]
    dsimp only
    rw [hp]

/-- Claim C9 witness: the spec's example `dispatch("frobnicate", "{}")`,
with "frobnicate" absent from the registry and from `Object.prototype`. -/
theorem c9_witness :
    amplifier_execute_tool echoRegistry "frobnicate" "\x7b\x7d"
      = (some (stringifyD (.obj [("success", .bool false),
          ("error", .str ("Unknown tool: " ++ "frobnicate"))])), []) :=
  (c9_unknown_tool_envelope echoRegistry "frobnicate" "\x7b\x7d").1 rfl (by decide)

/-- Claim C10: a canonical `tool`-role message whose `tool_call_id` is
absent or empty still normalizes to a `user`-role message, substituting
the literal placeholder "unknown" for the missing id in front of the
stringified content, rather than failing or omitting the message. -/
theorem c10_tool_message_unknown_id (m : JsVal)
    (hrole : getField m "role" = .str "tool")
    (hid : getField m "tool_call_id" = .undefined ∨ getField m "tool_call_id" = .str "") :
    mapMessage m = .ok (.obj [("role", .str "user"),
      ("content", .str ("[Tool result from unknown]: " ++
        (match getField m "content" with
         | .str s => s
         | c => (jsonStringify c).getD "undefined")))]) := by
  cases m with
  | undefined => exact JsVal.noConfusion hrole
  | null => exact JsVal.noConfusion hrole
  | bool b => exact JsVal.noConfusion hrole
  | num q => exact JsVal.noConfusion hrole
  | str s => exact JsVal.noConfusion hrole
  | arr xs => exact JsVal.noConfusion hrole
  | obj fs =>
    unfold mapMessage
    dsimp only
    rw [if_pos hrole]
    rcases hid with h | h <;> rw [h] <;> rfl

/-- Claim C10 witness: a tool message with content "42" and no
tool_call_id becomes the user message with the "unknown" placeholder. -/
theorem c10_witness :
    mapMessage (.obj [("role", .str "tool"), ("content", .str "42")])
      = .ok (.obj [("role", .str "user"),
          ("content", .str ("[Tool result from unknown]: " ++
            (match getField (.obj [("role", .str "tool"), ("content", .str "42")]) "content" with
             | .str s => s
             | c => (jsonStringify c).getD "undefined")))]) :=
  c10_tool_message_unknown_id (.obj [("role", .str "tool"), ("content", .str "42")])
    rfl (Or.inl rfl)
